import Mathlib

/-!
Shallow embedding of the task (ToDo) REST API: the `ToDo` model class, the
MongoDB store primitives used by `MongoConnection` (insert, list, update-one,
delete-one over a document collection, modelled as a `List ToDo` in natural
storage order), the `ToDoController` CRUD operations, the validation
middleware (`validateToDo`, `validateId`) over untyped JSON values, and the
route pipelines from `ToDoRoutes`. Each definition is translated from the
corresponding JavaScript source.
-/

set_option autoImplicit false

namespace ExpressToDo

/-- A JavaScript primitive value, as it can appear in a parsed JSON request
body: string, number, boolean or null. A field that is absent from the body
(JS `undefined`) is modelled as `Option.none` at the use site. -/
inductive JsValue where
  | str : String → JsValue
  | num : Int → JsValue
  | bool : Bool → JsValue
  | null : JsValue
  deriving DecidableEq, Repr

/-- JS `typeof` on a primitive value (`typeof null` is `"object"`). -/
def JsValue.jsTypeof : JsValue → String
  | .str _ => "string"
  | .num _ => "number"
  | .bool _ => "boolean"
  | .null => "object"

/-- JS truthiness of a primitive value: `""`, `0`, `false` and `null` are
falsy, everything else is truthy. -/
def JsValue.truthy : JsValue → Bool
  | .str s => !(s == "")
  | .num n => !(n == 0)
  | .bool b => b
  | .null => false

/-- Truthiness of a possibly-absent field (`undefined`, i.e. `none`, is
falsy). -/
def truthyOpt : Option JsValue → Bool
  | none => false
  | some v => v.truthy

/-- `typeof` of a possibly-absent field (`typeof undefined = "undefined"`). -/
def typeofOpt : Option JsValue → String
  | none => "undefined"
  | some v => v.jsTypeof

/-- The body of a create/update request: the two fields the API reads,
each possibly absent. -/
structure ReqBody where
  title : Option JsValue
  completed : Option JsValue
  deriving DecidableEq, Repr

/-- The task model class `ToDo` (models/ToDo.js): an id, a title and a
completion flag. The constructor defaults `completed` to `false`; that
default is applied at the call site (`ToDoController.create`). -/
structure ToDo where
  id : Int
  title : String
  completed : Bool
  deriving DecidableEq, Repr

/-- The ids of the tasks in a collection, in storage order. -/
def idsOf (s : List ToDo) : List Int := s.map ToDo.id

/-- A partial-field patch, as built by `ToDoController.update`: it contains
only the fields that were present (not `undefined`) in the request body. -/
structure UpdateData where
  title : Option String
  completed : Option Bool
  deriving DecidableEq, Repr

/-- MongoDB `$set` applied to one document: each field present in the patch
is overwritten, each absent field keeps its stored value; the `id` field is
never part of the patch built by the controller. -/
def applySet (p : UpdateData) (t : ToDo) : ToDo :=
  { t with
    title := p.title.getD t.title
    completed := p.completed.getD t.completed }

/-- `MongoConnection.insertToDo`: `collection.insertOne` appends the document
to the collection. -/
def insertToDo (t : ToDo) (s : List ToDo) : List ToDo := s ++ [t]

/-- `MongoConnection.getAllToDos`: `collection.find({}).toArray()` returns
every document in natural storage order. -/
def getAllToDos (s : List ToDo) : List ToDo := s

/-- `MongoConnection.updateToDo`: `collection.updateOne({id: id}, {$set:
updateData})` applies the patch to the first document whose `id` matches and
returns the new collection together with `modifiedCount`, which is `1` only
when a document matched and the `$set` actually changed it (MongoDB reports
`modifiedCount = 0` for a matched document that the patch leaves equal). -/
def updateToDo (id : Int) (p : UpdateData) : List ToDo → List ToDo × Nat
  | [] => ([], 0)
  | t :: ts =>
    if t.id == id then
      (applySet p t :: ts, if applySet p t = t then 0 else 1)
    else
      let r := updateToDo id p ts
      (t :: r.1, r.2)

/-- `MongoConnection.deleteToDo`: `collection.deleteOne({id: id})` removes
the first document whose `id` matches and returns the new collection together
with `deletedCount` (`0` or `1`). -/
def deleteToDo (id : Int) : List ToDo → List ToDo × Nat
  | [] => ([], 0)
  | t :: ts =>
    if t.id == id then (ts, 1)
    else
      let r := deleteToDo id ts
      (t :: r.1, r.2)

/-- The id assigned by `ToDoController.create`:
`todos.length > 0 ? Math.max(...todos.map(t => t.id)) + 1 : 1`. -/
def nextId : List ToDo → Int
  | [] => 1
  | t :: ts => (ts.foldl (fun m u => max m u.id) t.id) + 1

/-- An HTTP response as produced by the controller and middleware:
the constructor records which `res.*` call produced it. `jsonFind` models
`res.json(todos.find(...))`, whose argument may be `undefined`. -/
inductive Resp where
  | okList : List ToDo → Resp
  | okTodo : ToDo → Resp
  | jsonFind : Option ToDo → Resp
  | created : ToDo → Resp
  | noContent : Resp
  | badRequest : String → Resp
  | notFound : String → Resp
  deriving DecidableEq, Repr

/-- The HTTP status code of a response. -/
def Resp.status : Resp → Nat
  | .okList _ => 200
  | .okTodo _ => 200
  | .jsonFind _ => 200
  | .created _ => 201
  | .noContent => 204
  | .badRequest _ => 400
  | .notFound _ => 404

/-- A store-adapter primitive invocation, in the order the controller issues
them: `connect` (MongoConnection.connect), `list` (getAllToDos), `insert`
(insertToDo), `update` (updateToDo), `delete` (deleteToDo). -/
inductive StoreEvent where
  | connect : StoreEvent
  | list : StoreEvent
  | insert : StoreEvent
  | update : StoreEvent
  | delete : StoreEvent
  deriving DecidableEq, Repr

/-- `validateToDo` (middlewares/validation.js): for POST the title must be
truthy; a truthy title must have `typeof` string; a present `completed`
must have `typeof` boolean. Returns the 400 response sent, or `none` when
the middleware calls `next()`. -/
def validateToDo (isPost : Bool) (b : ReqBody) : Option Resp :=
  if isPost && !truthyOpt b.title then
    some (.badRequest "El campo \"title\" es requerido")
  else if truthyOpt b.title && !(typeofOpt b.title == "string") then
    some (.badRequest "El campo \"title\" debe ser una cadena de texto")
  else if b.completed.isSome && !(typeofOpt b.completed == "boolean") then
    some (.badRequest "El campo \"completed\" debe ser un booleano")
  else
    none

/-- One decimal digit. -/
def isDecDigit (c : Char) : Bool := '0' ≤ c && c ≤ '9'

/-- One hexadecimal digit. -/
def isHexDigit (c : Char) : Bool :=
  isDecDigit c || ('a' ≤ c && c ≤ 'f') || ('A' ≤ c && c ≤ 'F')

/-- The numeric value of a digit accepted by `isHexDigit`. -/
def digitVal (c : Char) : Nat :=
  if isDecDigit c then c.toNat - '0'.toNat
  else if 'a' ≤ c && c ≤ 'f' then c.toNat - 'a'.toNat + 10
  else c.toNat - 'A'.toNat + 10

/-- Value of a digit string in the given radix. -/
def digitsVal (radix : Nat) (cs : List Char) : Nat :=
  cs.foldl (fun a c => a * radix + digitVal c) 0

/-- JS `parseInt(string)` with no radix argument: skip leading whitespace,
read an optional sign, switch to base 16 on a `0x`/`0X` prefix, then take
the longest prefix of digits of the radix; `NaN` (here `none`) when that
prefix is empty. -/
def jsParseInt (s : String) : Option Int :=
  let cs := s.toList.dropWhile Char.isWhitespace
  let sign : Int := match cs with
    | '-' :: _ => -1
    | _ => 1
  let cs1 := match cs with
    | '-' :: rest => rest
    | '+' :: rest => rest
    | _ => cs
  let radix : Nat := match cs1 with
    | '0' :: 'x' :: _ => 16
    | '0' :: 'X' :: _ => 16
    | _ => 10
  let cs2 := match cs1 with
    | '0' :: 'x' :: rest => rest
    | '0' :: 'X' :: rest => rest
    | _ => cs1
  let digits := cs2.takeWhile (fun c => if radix == 16 then isHexDigit c else isDecDigit c)
  if digits.isEmpty then none
  else some (sign * (digitsVal radix digits : Int))

/-- `validateId` (middlewares/validation.js): `parseInt(req.params.id)`;
reject with 400 when the result is `NaN`, otherwise overwrite
`req.params.id` with the parsed integer and call `next()`. -/
def validateId (raw : String) : Except Resp Int :=
  match jsParseInt raw with
  | none => .error (.badRequest "El ID debe ser un número válido")
  | some n => .ok n

namespace ToDoController

/-- `ToDoController.getAll`: connect, list every task, send it as JSON. -/
def getAll (s : List ToDo) : Resp × List StoreEvent :=
  (.okList (getAllToDos s), [.connect, .list])

/-- `ToDoController.getById`: connect, list all tasks, linear-scan
(`todos.find`) for the first task whose `id` strictly equals the requested
one; 404 when there is none. -/
def getById (id : Int) (s : List ToDo) : Resp × List StoreEvent :=
  match (getAllToDos s).find? (fun t => t.id == id) with
  | none => (.notFound "ToDo no encontrado", [.connect, .list])
  | some t => (.okTodo t, [.connect, .list])

/-- `ToDoController.create`: connect; destructure
`{ title, completed = false }`; reject a falsy title with 400 (for a string
title, falsy means empty); otherwise list all tasks, assign
`nextId`, build the `ToDo`, insert it, and answer 201 with the new task.
Validation guarantees that by the time this runs, `title` is a string and
`completed` is a boolean when present. Returns (response, new collection,
store events in issue order). -/
def create (title : String) (completed : Option Bool) (s : List ToDo) :
    Resp × List ToDo × List StoreEvent :=
  if title == "" then
    (.badRequest "El título es requerido", s, [.connect])
  else
    let t : ToDo := ⟨nextId (getAllToDos s), title, completed.getD false⟩
    (.created t, insertToDo t s, [.connect, .list, .insert])

/-- `ToDoController.update`: connect; build the partial patch from the
fields present in the body; `updateToDo`; 404 when `modifiedCount` is zero;
otherwise re-read the full list and send `todos.find(t => t.id === id)`. -/
def update (id : Int) (p : UpdateData) (s : List ToDo) :
    Resp × List ToDo × List StoreEvent :=
  let r := updateToDo id p s
  if r.2 = 0 then
    (.notFound "ToDo no encontrado", r.1, [.connect, .update])
  else
    (.jsonFind ((getAllToDos r.1).find? (fun t => t.id == id)), r.1,
      [.connect, .update, .list])

/-- `ToDoController.delete`: connect; `deleteToDo`; 404 when `deletedCount`
is zero, otherwise 204 with no body. -/
def delete (id : Int) (s : List ToDo) : Resp × List ToDo × List StoreEvent :=
  let r := deleteToDo id s
  if r.2 = 0 then
    (.notFound "ToDo no encontrado", r.1, [.connect, .delete])
  else
    (.noContent, r.1, [.connect, .delete])

end ToDoController

/-- The `title` the controller's create sees after destructuring a body that
passed `validateToDo` for POST: such a body always carries a string title
(non-string titles are either falsy, rejected as required, or truthy,
rejected by the type check), so the fallback arm is unreachable through
`postRoute`. -/
def bodyTitleString (b : ReqBody) : String :=
  match b.title with
  | some (.str s) => s
  | _ => ""

/-- The `completed` field the controller sees after validation: a boolean
when present, absent otherwise; `validateToDo` rejects every present
non-boolean, so the fallback arm is unreachable through validated routes. -/
def bodyCompleted (b : ReqBody) : Option Bool :=
  match b.completed with
  | some (.bool v) => some v
  | _ => none

/-- The patch `ToDoController.update` builds:
`if (title !== undefined) updateData.title = title` and likewise for
`completed`, read from a body that passed `validateToDo` for PUT. -/
def bodyPatch (b : ReqBody) : UpdateData :=
  ⟨match b.title with
    | some (.str s) => some s
    | _ => none,
   bodyCompleted b⟩

/-- Route `GET /todos/:id` (routes/ToDoRoutes.js): `validateId` then
`controller.getById`. A failed validation responds without calling `next`,
so the controller, and with it every store primitive, never runs. -/
def getByIdRoute (rawId : String) (s : List ToDo) : Resp × List StoreEvent :=
  match validateId rawId with
  | .error e => (e, [])
  | .ok id => ToDoController.getById id s

/-- Route `POST /todos`: `validateToDo` (as POST) then `controller.create`. -/
def postRoute (b : ReqBody) (s : List ToDo) : Resp × List ToDo × List StoreEvent :=
  match validateToDo true b with
  | some e => (e, s, [])
  | none => ToDoController.create (bodyTitleString b) (bodyCompleted b) s

/-- Route `PUT /todos/:id`: `validateId`, then `validateToDo` (as PUT), then
`controller.update`. -/
def putRoute (rawId : String) (b : ReqBody) (s : List ToDo) :
    Resp × List ToDo × List StoreEvent :=
  match validateId rawId with
  | .error e => (e, s, [])
  | .ok id =>
    match validateToDo false b with
    | some e => (e, s, [])
    | none => ToDoController.update id (bodyPatch b) s

/-- Route `DELETE /todos/:id`: `validateId` then `controller.delete`. -/
def deleteRoute (rawId : String) (s : List ToDo) :
    Resp × List ToDo × List StoreEvent :=
  match validateId rawId with
  | .error e => (e, s, [])
  | .ok id => ToDoController.delete id s

/-- Running a sequence of create requests through the controller: returns
the final collection and the ids assigned to the tasks the successful
creates produced, in order. -/
def runCreates : List (String × Option Bool) → List ToDo → List ToDo × List Int
  | [], s => (s, [])
  | (title, c) :: rs, s =>
    let r := ToDoController.create title c s
    let rest := runCreates rs r.2.1
    match r.1 with
    | .created t => (rest.1, t.id :: rest.2)
    | _ => (rest.1, rest.2)

/-! ### Helper lemmas -/

theorem foldlMax_start_le (l : List ToDo) (a : Int) :
    a ≤ l.foldl (fun m u => max m u.id) a := by
  induction l generalizing a with
  | nil => exact le_refl a
  | cons t ts ih => exact le_trans (le_max_left a t.id) (ih (max a t.id))

theorem le_foldlMax_of_mem {l : List ToDo} {u : ToDo} (a : Int) (h : u ∈ l) :
    u.id ≤ l.foldl (fun m u => max m u.id) a := by
  induction l generalizing a with
  | nil => cases h
  | cons t ts ih =>
    rcases List.mem_cons.mp h with h | h
    · subst h
      exact le_trans (le_max_right a u.id) (foldlMax_start_le ts (max a u.id))
    · exact ih (max a t.id) h

theorem foldlMax_attained (l : List ToDo) (a : Int) :
    l.foldl (fun m u => max m u.id) a = a ∨
    ∃ u ∈ l, l.foldl (fun m u => max m u.id) a = u.id := by
  induction l generalizing a with
  | nil => exact Or.inl rfl
  | cons t ts ih =>
    rcases ih (max a t.id) with h | ⟨u, hu, he⟩
    · simp only [List.foldl_cons] at *
      rcases max_choice a t.id with hm | hm
      · exact Or.inl (h.trans hm)
      · exact Or.inr ⟨t, List.mem_cons_self t ts, h.trans hm⟩
    · exact Or.inr ⟨u, List.mem_cons_of_mem t hu, he⟩

theorem lt_nextId {s : List ToDo} {u : ToDo} (h : u ∈ s) : u.id < nextId s := by
  cases s with
  | nil => cases h
  | cons t ts =>
    have : u.id ≤ ts.foldl (fun m u => max m u.id) t.id := by
      rcases List.mem_cons.mp h with h | h
      · subst h; exact foldlMax_start_le ts u.id
      · exact le_foldlMax_of_mem t.id h
    simpa [nextId] using Int.lt_add_one_of_le this

theorem nextId_attained (s : List ToDo) (hs : s ≠ []) :
    ∃ u ∈ s, nextId s = u.id + 1 := by
  cases s with
  | nil => exact absurd rfl hs
  | cons t ts =>
    rcases foldlMax_attained ts t.id with h | ⟨u, hu, he⟩
    · exact ⟨t, List.mem_cons_self t ts, by simp [nextId, h]⟩
    · exact ⟨u, List.mem_cons_of_mem t hu, by simp [nextId, he]⟩

theorem nextId_concat (s : List ToDo) (title : String) (c : Bool) :
    nextId (s ++ [⟨nextId s, title, c⟩]) = nextId s + 1 := by
  cases s with
  | nil => rfl
  | cons t ts =>
    have h1 : nextId ((t :: ts) ++ [(⟨nextId (t :: ts), title, c⟩ : ToDo)])
        = ((ts ++ [(⟨nextId (t :: ts), title, c⟩ : ToDo)]).foldl
            (fun m u => max m u.id) t.id) + 1 := rfl
    have h2 : nextId (t :: ts) = ts.foldl (fun m u => max m u.id) t.id + 1 := rfl
    rw [h1, List.foldl_append]
    simp only [List.foldl_cons, List.foldl_nil]
    rw [h2, max_eq_right (by omega)]


theorem applySet_preserves_id (p : UpdateData) (t : ToDo) :
    (applySet p t).id = t.id := rfl

theorem applySet_eq_self {p : UpdateData} {t : ToDo}
    (hT : ∀ x, p.title = some x → x = t.title)
    (hC : ∀ b, p.completed = some b → b = t.completed) :
    applySet p t = t := by
  have h1 : p.title.getD t.title = t.title := by
    cases h : p.title with
    | none => rfl
    | some x => rw [Option.getD_some]; exact hT x h
  have h2 : p.completed.getD t.completed = t.completed := by
    cases h : p.completed with
    | none => rfl
    | some b => rw [Option.getD_some]; exact hC b h
  simp [applySet, h1, h2]

theorem updateToDo_idsOf (id : Int) (p : UpdateData) :
    ∀ s : List ToDo, idsOf (updateToDo id p s).1 = idsOf s := by
  intro s
  induction s with
  | nil => rfl
  | cons t ts ih =>
    by_cases h : t.id == id
    · simp [updateToDo, h, idsOf, applySet_preserves_id]
    · simp only [updateToDo, h, if_neg, Bool.false_eq_true, not_false_eq_true, idsOf,
        List.map_cons]
      simpa [idsOf] using ih

theorem updateToDo_store_eq (id : Int) (p : UpdateData) (s : List ToDo) :
    (ToDoController.update id p s).2.1 = (updateToDo id p s).1 := by
  by_cases h : (updateToDo id p s).2 = 0 <;> simp [ToDoController.update, h]

theorem updateToDo_getElem (id : Int) (p : UpdateData) :
    ∀ (s : List ToDo) (i : Nat) (t t' : ToDo),
      s[i]? = some t → (updateToDo id p s).1[i]? = some t' →
      (t.id ≠ id → t' = t) ∧ t'.id = t.id ∧
      (p.title = none → t'.title = t.title) ∧
      (p.completed = none → t'.completed = t.completed) := by
  intro s
  induction s with
  | nil => intro i t t' h1 _; simp at h1
  | cons u ts ih =>
    intro i t t' h1 h2
    by_cases hu : u.id == id
    · simp only [updateToDo, hu, if_pos] at h2
      cases i with
      | zero =>
        simp only [List.getElem?_cons_zero, Option.some.injEq] at h1 h2
        cases h1; cases h2
        refine ⟨fun hne => absurd (by simpa using hu) hne, applySet_preserves_id p u,
          fun h => ?_, fun h => ?_⟩
        · simp [applySet, h]
        · simp [applySet, h]
      | succ j =>
        simp only [List.getElem?_cons_succ] at h1 h2
        rw [h1] at h2
        cases h2
        exact ⟨fun _ => rfl, rfl, fun _ => rfl, fun _ => rfl⟩
    · simp only [updateToDo, hu, if_neg, Bool.false_eq_true, not_false_eq_true] at h2
      cases i with
      | zero =>
        simp only [List.getElem?_cons_zero, Option.some.injEq] at h1 h2
        cases h1; cases h2
        exact ⟨fun _ => rfl, rfl, fun _ => rfl, fun _ => rfl⟩
      | succ j =>
        simp only [List.getElem?_cons_succ] at h1 h2
        exact ih j t t' h1 h2

theorem updateToDo_find_of_modified (id : Int) (p : UpdateData) :
    ∀ s : List ToDo, (updateToDo id p s).2 ≠ 0 →
      ∃ t : ToDo, (updateToDo id p s).1.find? (fun u => u.id == id) = some t := by
  intro s
  induction s with
  | nil => intro h; exact absurd rfl h
  | cons u ts ih =>
    intro h
    by_cases hu : u.id == id
    · refine ⟨applySet p u, ?_⟩
      simp [updateToDo, hu, List.find?_cons, applySet_preserves_id]
    · simp only [updateToDo, hu, if_neg, Bool.false_eq_true, not_false_eq_true] at h ⊢
      obtain ⟨t, ht⟩ := ih h
      exact ⟨t, by simp [List.find?_cons, hu, ht]⟩

theorem updateToDo_noop (id : Int) (p : UpdateData) :
    ∀ (s : List ToDo) (t : ToDo),
      s.find? (fun u => u.id == id) = some t → applySet p t = t →
      updateToDo id p s = (s, 0) := by
  intro s
  induction s with
  | nil => intro t h _; simp at h
  | cons u ts ih =>
    intro t hfind hnoop
    by_cases hu : u.id == id
    · have hut : u = t := by simpa [hu] using hfind
      cases hut
      simp [updateToDo, hu, hnoop]
    · have hfind' : ts.find? (fun v => v.id == id) = some t := by
        simpa [hu] using hfind
      have := ih t hfind' hnoop
      simp [updateToDo, hu, this]

theorem deleteToDo_sublist (id : Int) :
    ∀ s : List ToDo, (deleteToDo id s).1.Sublist s := by
  intro s
  induction s with
  | nil => exact List.Sublist.refl []
  | cons u ts ih =>
    by_cases hu : u.id == id
    · simp only [deleteToDo, hu, if_pos]
      exact List.sublist_cons_self u ts
    · simpa [deleteToDo, hu] using List.Sublist.cons₂ u ih

theorem deleteToDo_of_absent (id : Int) :
    ∀ s : List ToDo, (∀ u ∈ s, u.id ≠ id) → deleteToDo id s = (s, 0) := by
  intro s
  induction s with
  | nil => intro _; rfl
  | cons u ts ih =>
    intro h
    have hu : (u.id == id) = false := by
      simpa using h u (List.mem_cons_self u ts)
    have := ih (fun v hv => h v (List.mem_cons_of_mem u hv))
    simp [deleteToDo, hu, this]

theorem deleteToDo_removes_id (id : Int) :
    ∀ s : List ToDo, (idsOf s).Nodup →
      ∀ u ∈ (deleteToDo id s).1, u.id ≠ id := by
  intro s
  induction s with
  | nil => intro _ u hu; simp [deleteToDo] at hu
  | cons t ts ih =>
    intro hnd u hu
    have hnd' : (idsOf ts).Nodup := (List.nodup_cons.mp hnd).2
    by_cases ht : t.id == id
    · simp only [deleteToDo, ht, if_pos] at hu
      have htid : t.id = id := by simpa using ht
      have hmem : t.id ∉ idsOf ts := by
        simpa [idsOf] using (List.nodup_cons.mp hnd).1
      intro hcon
      exact hmem (htid ▸ hcon ▸ List.mem_map_of_mem ToDo.id hu)
    · simp only [deleteToDo, ht, if_neg, Bool.false_eq_true, not_false_eq_true,
        List.mem_cons] at hu
      rcases hu with hu | hu
      · subst hu; simpa using ht
      · exact ih hnd' u hu

theorem find?_first_index {p : ToDo → Bool} :
    ∀ (s : List ToDo) (t : ToDo), s.find? p = some t →
      ∃ i : Nat, s[i]? = some t ∧ p t ∧
        ∀ j, j < i → ∀ u, s[j]? = some u → ¬ p u := by
  intro s
  induction s with
  | nil => intro t h; simp at h
  | cons a ts ih =>
    intro t h
    by_cases ha : p a
    · rw [List.find?_cons_of_pos _ ha] at h
      cases h
      exact ⟨0, by simp, ha, fun j hj => absurd hj (Nat.not_lt_zero j)⟩
    · rw [List.find?_cons_of_neg _ ha] at h
      obtain ⟨i, h1, h2, h3⟩ := ih t h
      refine ⟨i + 1, by simpa using h1, h2, fun j hj u hu => ?_⟩
      cases j with
      | zero =>
        simp only [List.getElem?_cons_zero, Option.some.injEq] at hu
        subst hu; exact ha
      | succ k =>
        simp only [List.getElem?_cons_succ] at hu
        exact h3 k (Nat.lt_of_succ_lt_succ hj) u hu

theorem create_success (title : String) (c : Option Bool) (s : List ToDo)
    (h : title ≠ "") :
    ToDoController.create title c s =
      (.created ⟨nextId s, title, c.getD false⟩,
       s ++ [⟨nextId s, title, c.getD false⟩],
       [.connect, .list, .insert]) := by
  have hb : (title == "") = false := by simpa using h
  simp [ToDoController.create, hb, insertToDo, getAllToDos]

theorem delete_store_eq (id : Int) (s : List ToDo) :
    (ToDoController.delete id s).2.1 = (deleteToDo id s).1 := by
  by_cases h : (deleteToDo id s).2 = 0 <;> simp [ToDoController.delete, h]

theorem nextId_not_mem_ids (s : List ToDo) : nextId s ∉ idsOf s := by
  intro hmem
  obtain ⟨u, hu, he⟩ := List.mem_map.mp hmem
  exact absurd (he ▸ lt_nextId hu) (lt_irrefl _)

theorem runCreates_cons (title : String) (c : Option Bool)
    (rs : List (String × Option Bool)) (s : List ToDo) (h : title ≠ "") :
    runCreates ((title, c) :: rs) s =
      ((runCreates rs (s ++ [⟨nextId s, title, c.getD false⟩])).1,
       nextId s :: (runCreates rs (s ++ [⟨nextId s, title, c.getD false⟩])).2) := by
  simp [runCreates, create_success title c s h]

theorem runCreates_chain (reqs : List (String × Option Bool)) :
    ∀ s : List ToDo, (∀ r ∈ reqs, r.1 ≠ "") →
      List.Chain' (· < ·) (runCreates reqs s).2 ∧
      ∀ x, (runCreates reqs s).2.head? = some x → nextId s ≤ x := by
  induction reqs with
  | nil =>
    intro s _
    exact ⟨List.chain'_nil, fun x hx => by simp [runCreates] at hx⟩
  | cons r rs ih =>
    intro s h
    obtain ⟨title, c⟩ := r
    have ht : title ≠ "" := h (title, c) (List.mem_cons_self _ _)
    have hrest := ih (s ++ [⟨nextId s, title, c.getD false⟩])
      (fun r hr => h r (List.mem_cons_of_mem _ hr))
    have hnext : nextId (s ++ [⟨nextId s, title, c.getD false⟩]) = nextId s + 1 :=
      nextId_concat s title (c.getD false)
    rw [runCreates_cons title c rs s ht]
    constructor
    · rw [List.chain'_cons']
      refine ⟨fun y hy => ?_, hrest.1⟩
      have := hrest.2 y (Option.mem_def.mp hy)
      omega
    · intro x hx
      simp only [List.head?_cons, Option.some.injEq] at hx
      omega

/-! ### Claims -/

/-- C1: for every create request with a valid (non-empty) title, the id
assigned to the new task is `max(ids of all listed tasks) + 1`, or `1` when
the collection is empty; `completed` defaults to `false` when absent from
the request, and the created task is returned with status 201 and appended
to the store. -/
theorem create_assigns_max_plus_one
    (title : String) (c : Option Bool) (s : List ToDo) (h : title ≠ "") :
    ∃ t : ToDo,
      (ToDoController.create title c s).1 = .created t ∧
      (ToDoController.create title c s).1.status = 201 ∧
      (ToDoController.create title c s).2.1 = s ++ [t] ∧
      t.title = title ∧ t.completed = c.getD false ∧
      (s = [] → t.id = 1) ∧
      (s ≠ [] → (∃ u ∈ s, t.id = u.id + 1) ∧ ∀ u ∈ s, u.id < t.id) := by
  refine ⟨⟨nextId s, title, c.getD false⟩, ?_, ?_, ?_, rfl, rfl, ?_, ?_⟩
  · rw [create_success title c s h]
  · rw [create_success title c s h]; rfl
  · rw [create_success title c s h]
  · intro hs; subst hs; rfl
  · intro hs; exact ⟨nextId_attained s hs, fun u hu => lt_nextId hu⟩

/-- Witness for C1: creating "buy milk" over a store whose only task has
id 5 assigns id 6, defaults `completed` to false and answers 201. -/
theorem create_assigns_max_plus_one_witness :
    ∃ t : ToDo,
      (ToDoController.create "buy milk" none [⟨5, "x", true⟩]).1 = .created t ∧
      (ToDoController.create "buy milk" none [⟨5, "x", true⟩]).1.status = 201 ∧
      (ToDoController.create "buy milk" none [⟨5, "x", true⟩]).2.1 =
        [⟨5, "x", true⟩] ++ [t] ∧
      t.title = "buy milk" ∧ t.completed = (none : Option Bool).getD false ∧
      ([(⟨5, "x", true⟩ : ToDo)] = [] → t.id = 1) ∧
      ([(⟨5, "x", true⟩ : ToDo)] ≠ [] →
        (∃ u ∈ [(⟨5, "x", true⟩ : ToDo)], t.id = u.id + 1) ∧
        ∀ u ∈ [(⟨5, "x", true⟩ : ToDo)], u.id < t.id) :=
  create_assigns_max_plus_one "buy milk" none [⟨5, "x", true⟩] (by decide)

/-- C3: an update changes only the fields present in the patch: at every
position of the store, a task whose id differs from the requested one is
left entirely unchanged, the id field is never changed, and each field
absent from the patch keeps its stored value. -/
theorem update_partial_merge
    (id : Int) (p : UpdateData) (s : List ToDo) (i : Nat) (t t' : ToDo)
    (h1 : s[i]? = some t)
    (h2 : (ToDoController.update id p s).2.1[i]? = some t') :
    (t.id ≠ id → t' = t) ∧ t'.id = t.id ∧
    (p.title = none → t'.title = t.title) ∧
    (p.completed = none → t'.completed = t.completed) := by
  rw [updateToDo_store_eq] at h2
  exact updateToDo_getElem id p s i t t' h1 h2

/-- Witness for C3: patching only `completed` on task 1 leaves task 2,
which sits at position 1, entirely unchanged. -/
theorem update_partial_merge_witness :
    ((⟨2, "b", false⟩ : ToDo).id ≠ 1 → (⟨2, "b", false⟩ : ToDo) = ⟨2, "b", false⟩) ∧
    (⟨2, "b", false⟩ : ToDo).id = (⟨2, "b", false⟩ : ToDo).id ∧
    ((⟨none, some true⟩ : UpdateData).title = none →
      (⟨2, "b", false⟩ : ToDo).title = (⟨2, "b", false⟩ : ToDo).title) ∧
    ((⟨none, some true⟩ : UpdateData).completed = none →
      (⟨2, "b", false⟩ : ToDo).completed = (⟨2, "b", false⟩ : ToDo).completed) :=
  update_partial_merge 1 ⟨none, some true⟩ [⟨1, "a", false⟩, ⟨2, "b", false⟩] 1
    ⟨2, "b", false⟩ ⟨2, "b", false⟩ (by decide) (by decide)

/-- C4: the update operation signals 404 exactly when the store's
modified-count is zero; otherwise it re-reads the task list and responds
with the task of the requested id taken from the updated stored state.
The patch is assumed non-empty: the MongoDB driver rejects an empty
`$set`, so the controller never reaches the modified-count check there. -/
theorem update_notfound_iff_modified_zero
    (id : Int) (p : UpdateData) (s : List ToDo)
    (_hp : p.title ≠ none ∨ p.completed ≠ none) :
    ((ToDoController.update id p s).1 = .notFound "ToDo no encontrado" ↔
       (updateToDo id p s).2 = 0) ∧
    ((updateToDo id p s).2 ≠ 0 →
       ∃ t : ToDo,
         ((updateToDo id p s).1.find? (fun u => u.id == id)) = some t ∧
         (ToDoController.update id p s).1 = .jsonFind (some t) ∧
         t.id = id ∧ t ∈ (updateToDo id p s).1) := by
  refine ⟨⟨fun hnf => ?_, fun h0 => by simp [ToDoController.update, h0]⟩, fun hne => ?_⟩
  · by_contra hne
    simp [ToDoController.update, hne] at hnf
  · obtain ⟨t, ht⟩ := updateToDo_find_of_modified id p s hne
    refine ⟨t, ht, ?_, ?_, List.mem_of_find?_eq_some ht⟩
    · simp [ToDoController.update, hne, getAllToDos, ht]
    · simpa using List.find?_some ht

/-- Witness for C4: setting `completed := true` on the existing task 1
modifies one document and the response is the re-read stored task. -/
theorem update_notfound_iff_modified_zero_witness :
    ∃ t : ToDo,
      ((updateToDo 1 ⟨none, some true⟩ [⟨1, "a", false⟩]).1.find?
        (fun u => u.id == 1)) = some t ∧
      (ToDoController.update 1 ⟨none, some true⟩ [⟨1, "a", false⟩]).1 =
        .jsonFind (some t) ∧
      t.id = 1 ∧ t ∈ (updateToDo 1 ⟨none, some true⟩ [⟨1, "a", false⟩]).1 :=
  (update_notfound_iff_modified_zero 1 ⟨none, some true⟩ [⟨1, "a", false⟩]
    (by decide)).2 (by decide)

/-- C10: an update whose supplied fields all equal the values already
stored for the targeted task reports a modified-count of zero, so the
controller answers 404 even though the task exists (`hfind`). The patch is
non-empty, so the store round-trip does happen. -/
theorem noop_update_on_existing_task_notfound
    (id : Int) (p : UpdateData) (s : List ToDo) (t : ToDo)
    (hfind : s.find? (fun u => u.id == id) = some t)
    (hT : ∀ x, p.title = some x → x = t.title)
    (hC : ∀ b, p.completed = some b → b = t.completed)
    (_hp : p.title ≠ none ∨ p.completed ≠ none) :
    updateToDo id p s = (s, 0) ∧
    (ToDoController.update id p s).1 = .notFound "ToDo no encontrado" ∧
    (ToDoController.update id p s).1.status = 404 := by
  have hz := updateToDo_noop id p s t hfind (applySet_eq_self hT hC)
  exact ⟨hz, by simp [ToDoController.update, hz],
    by simp [ToDoController.update, hz, Resp.status]⟩

/-- Witness for C10: task 1 is stored as completed, the patch sets
`completed := true` again, and the update answers 404. -/
theorem noop_update_on_existing_task_notfound_witness :
    updateToDo 1 ⟨none, some true⟩ [⟨1, "a", true⟩] = ([⟨1, "a", true⟩], 0) ∧
    (ToDoController.update 1 ⟨none, some true⟩ [⟨1, "a", true⟩]).1 =
      .notFound "ToDo no encontrado" ∧
    (ToDoController.update 1 ⟨none, some true⟩ [⟨1, "a", true⟩]).1.status = 404 :=
  noop_update_on_existing_task_notfound 1 ⟨none, some true⟩ [⟨1, "a", true⟩]
    ⟨1, "a", true⟩ (by decide) (fun x hx => nomatch hx)
    (fun b hb => by cases hb; rfl) (by decide)

/-- C2: over any collection with pairwise-distinct ids, the ids assigned by
a sequence of sequential creates with valid titles are strictly increasing,
and distinctness of the collection's ids is preserved by every create,
update and delete operation. -/
theorem sequential_creates_increasing_ids_unique
    (s : List ToDo) (reqs : List (String × Option Bool))
    (hs : (idsOf s).Nodup) (hreqs : ∀ r ∈ reqs, r.1 ≠ "") :
    List.Chain' (· < ·) (runCreates reqs s).2 ∧
    (∀ title c, (idsOf (ToDoController.create title c s).2.1).Nodup) ∧
    (∀ id p, (idsOf (ToDoController.update id p s).2.1).Nodup) ∧
    (∀ id, (idsOf (ToDoController.delete id s).2.1).Nodup) := by
  refine ⟨(runCreates_chain reqs s hreqs).1, fun title c => ?_, fun id p => ?_,
    fun id => ?_⟩
  · by_cases h : title = ""
    · subst h; simpa [ToDoController.create] using hs
    · rw [create_success title c s h]
      have hnm := nextId_not_mem_ids s
      simp only [idsOf, List.map_append, List.map_cons, List.map_nil,
        List.nodup_append] at *
      exact ⟨hs, List.nodup_singleton _, by simpa using hnm⟩
  · rw [updateToDo_store_eq, updateToDo_idsOf]
    exact hs
  · rw [delete_store_eq]
    exact hs.sublist ((deleteToDo_sublist id s).map ToDo.id)

/-- Witness for C2: two creates over a one-task store assign 2 then 3. -/
theorem sequential_creates_increasing_ids_unique_witness :
    List.Chain' (· < ·)
      (runCreates [("b", none), ("c", some true)] [⟨1, "a", false⟩]).2 ∧
    (∀ title c,
      (idsOf (ToDoController.create title c [⟨1, "a", false⟩]).2.1).Nodup) ∧
    (∀ id p,
      (idsOf (ToDoController.update id p [⟨1, "a", false⟩]).2.1).Nodup) ∧
    (∀ id, (idsOf (ToDoController.delete id [⟨1, "a", false⟩]).2.1).Nodup) :=
  sequential_creates_increasing_ids_unique [⟨1, "a", false⟩]
    [("b", none), ("c", some true)] (by decide) (by decide)

/-- C5: a task created with a valid title and then fetched by its id from
the resulting store (no intervening operation) is returned with exactly the
fields it was created with; get-by-id answers 404 precisely when no stored
task carries the requested id, and otherwise returns the first stored task
whose id equals the requested integer exactly. -/
theorem create_then_getById_roundtrip
    (title : String) (c : Option Bool) (s : List ToDo) (id : Int)
    (h : title ≠ "") :
    (∃ t : ToDo,
       (ToDoController.create title c s).1 = .created t ∧
       (ToDoController.getById t.id (ToDoController.create title c s).2.1).1 =
         .okTodo t) ∧
    ((ToDoController.getById id s).1 = .notFound "ToDo no encontrado" ↔
       ∀ u ∈ s, u.id ≠ id) ∧
    (∀ t : ToDo, (ToDoController.getById id s).1 = .okTodo t →
       t.id = id ∧ ∃ i : Nat, s[i]? = some t ∧
         ∀ j, j < i → ∀ u, s[j]? = some u → u.id ≠ id) := by
  refine ⟨?_, ⟨fun hnf => ?_, fun hall => ?_⟩, fun t hok => ?_⟩
  · refine ⟨⟨nextId s, title, c.getD false⟩, ?_, ?_⟩
    · rw [create_success title c s h]
    · rw [create_success title c s h]
      have hnone : s.find? (fun u => u.id == nextId s) = none :=
        List.find?_eq_none.mpr (fun u hu => by
          simpa using Int.ne_of_lt (lt_nextId hu))
      have hfind : (s ++ [(⟨nextId s, title, c.getD false⟩ : ToDo)]).find?
          (fun u => u.id == nextId s) = some ⟨nextId s, title, c.getD false⟩ := by
        rw [List.find?_append, hnone]
        simp
      simp [ToDoController.getById, getAllToDos, hfind]
  · intro u hu
    cases hf : s.find? (fun v => v.id == id) with
    | none => simpa using List.find?_eq_none.mp hf u hu
    | some v => simp [ToDoController.getById, getAllToDos, hf] at hnf
  · have hnone : s.find? (fun v => v.id == id) = none :=
      List.find?_eq_none.mpr (fun u hu => by simpa using hall u hu)
    simp [ToDoController.getById, getAllToDos, hnone]
  · cases hf : s.find? (fun v => v.id == id) with
    | none => simp [ToDoController.getById, getAllToDos, hf] at hok
    | some v =>
      have hv : v = t := by
        simpa [ToDoController.getById, getAllToDos, hf] using hok
      subst hv
      refine ⟨by simpa using List.find?_some hf, ?_⟩
      obtain ⟨i, h1, _, h3⟩ := find?_first_index s v hf
      exact ⟨i, h1, fun j hj u hu => by simpa using h3 j hj u hu⟩

/-- Witness for C5: creating "buy milk" in an empty store and fetching id 1
returns the same task; fetching id 1 from the empty store is 404. -/
theorem create_then_getById_roundtrip_witness :
    (∃ t : ToDo,
       (ToDoController.create "buy milk" none []).1 = .created t ∧
       (ToDoController.getById t.id (ToDoController.create "buy milk" none []).2.1).1 =
         .okTodo t) ∧
    ((ToDoController.getById 1 ([] : List ToDo)).1 = .notFound "ToDo no encontrado" ↔
       ∀ u ∈ ([] : List ToDo), u.id ≠ 1) ∧
    (∀ t : ToDo, (ToDoController.getById 1 ([] : List ToDo)).1 = .okTodo t →
       t.id = 1 ∧ ∃ i : Nat, ([] : List ToDo)[i]? = some t ∧
         ∀ j, j < i → ∀ u, ([] : List ToDo)[j]? = some u → u.id ≠ 1) :=
  create_then_getById_roundtrip "buy milk" none [] 1 (by decide)

/-- C6: the delete operation answers 404 exactly when the store's
deleted-count is zero, and 204 with no body otherwise; under the unique-ids
invariant, fetching a deleted id afterwards answers 404, and a second
delete of the same id answers 404. -/
theorem delete_notfound_iff_deleted_zero
    (id : Int) (s : List ToDo) (h : (idsOf s).Nodup) :
    ((ToDoController.delete id s).1 = .notFound "ToDo no encontrado" ↔
       (deleteToDo id s).2 = 0) ∧
    ((deleteToDo id s).2 ≠ 0 → (ToDoController.delete id s).1 = .noContent) ∧
    ((ToDoController.delete id s).1 = .noContent →
       (ToDoController.getById id (ToDoController.delete id s).2.1).1 =
         .notFound "ToDo no encontrado" ∧
       (ToDoController.delete id (ToDoController.delete id s).2.1).1 =
         .notFound "ToDo no encontrado") := by
  have habsent : ∀ u ∈ (deleteToDo id s).1, u.id ≠ id :=
    deleteToDo_removes_id id s h
  have hfnone : (deleteToDo id s).1.find? (fun u => u.id == id) = none :=
    List.find?_eq_none.mpr (fun u hu => by simpa using habsent u hu)
  have hzero : deleteToDo id (deleteToDo id s).1 = ((deleteToDo id s).1, 0) :=
    deleteToDo_of_absent id (deleteToDo id s).1 habsent
  refine ⟨?_, fun hne => by simp [ToDoController.delete, hne], fun _ => ?_⟩
  · by_cases h0 : (deleteToDo id s).2 = 0 <;> simp [ToDoController.delete, h0]
  · rw [delete_store_eq]
    exact ⟨by simp [ToDoController.getById, getAllToDos, hfnone],
      by simp [ToDoController.delete, hzero]⟩

/-- Witness for C6: deleting the only task answers 204; the re-fetch and
the second delete of the same id answer 404. -/
theorem delete_notfound_iff_deleted_zero_witness :
    ((ToDoController.delete 1 [⟨1, "a", false⟩]).1 = .notFound "ToDo no encontrado" ↔
       (deleteToDo 1 [⟨1, "a", false⟩]).2 = 0) ∧
    ((deleteToDo 1 [⟨1, "a", false⟩]).2 ≠ 0 →
       (ToDoController.delete 1 [⟨1, "a", false⟩]).1 = .noContent) ∧
    ((ToDoController.delete 1 [⟨1, "a", false⟩]).1 = .noContent →
       (ToDoController.getById 1 (ToDoController.delete 1 [⟨1, "a", false⟩]).2.1).1 =
         .notFound "ToDo no encontrado" ∧
       (ToDoController.delete 1 (ToDoController.delete 1 [⟨1, "a", false⟩]).2.1).1 =
         .notFound "ToDo no encontrado") :=
  delete_notfound_iff_deleted_zero 1 [⟨1, "a", false⟩] (by decide)

theorem validateToDo_badRequest (m : Bool) (b : ReqBody) (e : Resp)
    (h : validateToDo m b = some e) : ∃ msg, e = .badRequest msg := by
  unfold validateToDo at h
  split at h
  · cases h; exact ⟨_, rfl⟩
  · split at h
    · cases h; exact ⟨_, rfl⟩
    · split at h
      · cases h; exact ⟨_, rfl⟩
      · cases h

/-- C7: a path identifier is accepted exactly when JS `parseInt` yields a
number; a rejection is a 400 on every route carrying an id, before the
controller runs; on acceptance, the downstream controller is invoked with
the parsed integer in place of the raw path value. -/
theorem validateId_parses_and_replaces (raw : String) (b : ReqBody)
    (s : List ToDo) :
    (jsParseInt raw = none →
       validateId raw = .error (.badRequest "El ID debe ser un número válido") ∧
       (getByIdRoute raw s).1.status = 400 ∧
       (deleteRoute raw s).1.status = 400 ∧
       (putRoute raw b s).1.status = 400) ∧
    (∀ n : Int, jsParseInt raw = some n →
       validateId raw = .ok n ∧
       getByIdRoute raw s = ToDoController.getById n s ∧
       deleteRoute raw s = ToDoController.delete n s ∧
       (validateToDo false b = none →
         putRoute raw b s = ToDoController.update n (bodyPatch b) s)) := by
  constructor
  · intro hn
    simp [validateId, hn, getByIdRoute, deleteRoute, putRoute, Resp.status]
  · intro n hn
    exact ⟨by simp [validateId, hn], by simp [getByIdRoute, validateId, hn],
      by simp [deleteRoute, validateId, hn],
      fun hv => by simp [putRoute, validateId, hn, hv]⟩

/-- Witness for C7: the raw id "7" parses to 7 and the get-by-id route
invokes the controller with 7; "abc" does not parse and every id-carrying
route answers 400. -/
theorem validateId_parses_and_replaces_witness :
    (validateId "7" = .ok 7 ∧
     getByIdRoute "7" [] = ToDoController.getById 7 []) ∧
    (getByIdRoute "abc" []).1.status = 400 := by
  have h7 := (validateId_parses_and_replaces "7" ⟨none, none⟩ []).2 7 (by decide)
  have habc := (validateId_parses_and_replaces "abc" ⟨none, none⟩ []).1 (by decide)
  exact ⟨⟨h7.1, h7.2.1⟩, habc.2.1⟩

/-- C8: a create request whose title is missing or the empty string, whose
title is present but not a string, or whose `completed` is present but not
a boolean, is rejected by the validation middleware with a 400, whatever
the other field holds. -/
theorem invalid_create_body_rejected (b : ReqBody) (s : List ToDo)
    (h : b.title = none ∨ b.title = some (.str "") ∨
         (∃ v, b.title = some v ∧ v.jsTypeof ≠ "string") ∨
         (∃ v, b.completed = some v ∧ v.jsTypeof ≠ "boolean")) :
    ∃ msg, validateToDo true b = some (.badRequest msg) ∧
      (postRoute b s).1 = .badRequest msg ∧ (postRoute b s).1.status = 400 := by
  have key : ∃ msg, validateToDo true b = some (.badRequest msg) := by
    unfold validateToDo
    by_cases c1 : (true && !truthyOpt b.title) = true
    · rw [if_pos c1]; exact ⟨_, rfl⟩
    · rw [if_neg c1]
      by_cases c2 : (truthyOpt b.title && !(typeofOpt b.title == "string")) = true
      · rw [if_pos c2]; exact ⟨_, rfl⟩
      · rw [if_neg c2]
        by_cases c3 : (b.completed.isSome && !(typeofOpt b.completed == "boolean")) = true
        · rw [if_pos c3]; exact ⟨_, rfl⟩
        · exfalso
          have ht : truthyOpt b.title = true := by
            cases hbt : truthyOpt b.title
            · exact absurd (by simp [hbt]) c1
            · rfl
          have hstr : typeofOpt b.title = "string" := by
            cases hx : (typeofOpt b.title == "string")
            · exact absurd (by simp [ht, hx]) c2
            · simpa using hx
          rcases h with h | h | ⟨v, hv, hne⟩ | ⟨v, hv, hne⟩
          · rw [h] at ht; simp [truthyOpt] at ht
          · rw [h] at ht; simp [truthyOpt, JsValue.truthy] at ht
          · rw [hv] at hstr
            exact hne (by simpa [typeofOpt] using hstr)
          · have hcb : (typeofOpt b.completed == "boolean") = true := by
              cases hx : (typeofOpt b.completed == "boolean")
              · refine absurd ?_ c3
                rw [hv] at hx ⊢
                simp [hx]
              · rfl
            rw [hv] at hcb
            exact hne (by simpa [typeofOpt] using hcb)
  obtain ⟨msg, hmsg⟩ := key
  exact ⟨msg, hmsg, by simp [postRoute, hmsg], by simp [postRoute, hmsg, Resp.status]⟩

/-- Witness for C8: a numeric title is rejected with 400 regardless of the
absent `completed`. -/
theorem invalid_create_body_rejected_witness :
    ∃ msg, validateToDo true ⟨some (.num 5), none⟩ = some (.badRequest msg) ∧
      (postRoute ⟨some (.num 5), none⟩ []).1 = .badRequest msg ∧
      (postRoute ⟨some (.num 5), none⟩ []).1.status = 400 :=
  invalid_create_body_rejected ⟨some (.num 5), none⟩ []
    (Or.inr (Or.inr (Or.inl ⟨.num 5, rfl, by decide⟩)))

/-- C9: whenever validation fails — an unparseable path id on the get-by-id,
put or delete route, or an invalid body on the post or put route — the 400
response is produced with an empty store-event trace: no store-adapter
primitive (connect, list, insert, update, delete) is ever invoked. -/
theorem validation_failure_short_circuits_store
    (rawId otherRaw : String) (bPut bPost : ReqBody) (s : List ToDo)
    (hid : jsParseInt rawId = none)
    (hpost : validateToDo true bPost ≠ none)
    (hput : validateToDo false bPut ≠ none) :
    ((getByIdRoute rawId s).2 = [] ∧ (getByIdRoute rawId s).1.status = 400) ∧
    ((deleteRoute rawId s).2.2 = [] ∧ (deleteRoute rawId s).1.status = 400) ∧
    ((putRoute rawId bPut s).2.2 = [] ∧ (putRoute rawId bPut s).1.status = 400) ∧
    ((postRoute bPost s).2.2 = [] ∧ (postRoute bPost s).1.status = 400) ∧
    ((putRoute otherRaw bPut s).2.2 = [] ∧ (putRoute otherRaw bPut s).1.status = 400) := by
  obtain ⟨ePost, hePost⟩ := Option.ne_none_iff_exists'.mp hpost
  obtain ⟨ePut, hePut⟩ := Option.ne_none_iff_exists'.mp hput
  obtain ⟨msgPost, hmPost⟩ := validateToDo_badRequest true bPost ePost hePost
  obtain ⟨msgPut, hmPut⟩ := validateToDo_badRequest false bPut ePut hePut
  refine ⟨?_, ?_, ?_, ?_, ?_⟩
  · exact ⟨by simp [getByIdRoute, validateId, hid],
      by simp [getByIdRoute, validateId, hid, Resp.status]⟩
  · exact ⟨by simp [deleteRoute, validateId, hid],
      by simp [deleteRoute, validateId, hid, Resp.status]⟩
  · exact ⟨by simp [putRoute, validateId, hid],
      by simp [putRoute, validateId, hid, Resp.status]⟩
  · exact ⟨by simp [postRoute, hePost],
      by simp [postRoute, hePost, hmPost, Resp.status]⟩
  · cases hvi : jsParseInt otherRaw with
    | none =>
      exact ⟨by simp [putRoute, validateId, hvi],
        by simp [putRoute, validateId, hvi, Resp.status]⟩
    | some n =>
      exact ⟨by simp [putRoute, validateId, hvi, hePut],
        by simp [putRoute, validateId, hvi, hePut, hmPut, Resp.status]⟩

/-- Witness for C9: a non-numeric id, a body with no title (POST) and a
body with a numeric title (PUT) each yield a 400 with no store events. -/
theorem validation_failure_short_circuits_store_witness :
    ((getByIdRoute "abc" []).2 = [] ∧ (getByIdRoute "abc" []).1.status = 400) ∧
    ((deleteRoute "abc" []).2.2 = [] ∧ (deleteRoute "abc" []).1.status = 400) ∧
    ((putRoute "abc" ⟨some (.num 1), none⟩ []).2.2 = [] ∧
     (putRoute "abc" ⟨some (.num 1), none⟩ []).1.status = 400) ∧
    ((postRoute ⟨none, none⟩ []).2.2 = [] ∧
     (postRoute ⟨none, none⟩ []).1.status = 400) ∧
    ((putRoute "5" ⟨some (.num 1), none⟩ []).2.2 = [] ∧
     (putRoute "5" ⟨some (.num 1), none⟩ []).1.status = 400) :=
  validation_failure_short_circuits_store "abc" "5" ⟨some (.num 1), none⟩
    ⟨none, none⟩ [] (by decide) (by decide) (by decide)

end ExpressToDo
